import Mathlib

/-!
Verification of the solubility inference engine of ChemSimGUI.

The numerical core (src/model/thermo_solubility.py, src/model/thermo_optimizer.py
and the orchestration methods of src/controller/solubility_manager.py) is
shallowly embedded here.  Python floats are modelled as the elements of a
linear ordered field (instantiated at `ℝ` in the theorems that need the
analytic facts, and at `ℚ` in concrete witnesses), and numpy arrays as lists.
The transcendental library functions `np.exp` and `np.log` are passed to each
definition as explicit function parameters named `exp` and `log`; the intended
instantiation is `Real.exp` / `Real.log`, and every structural theorem below
is proved for an arbitrary instantiation, which only strengthens it.

The scipy routines the core calls (`optimize.brentq`,
`optimize.minimize_scalar`, and `optimize.least_squares` in the theoretical
fit branch) are not part of this repository; the embedding takes them as
explicit function parameters so that the theorems quantify over every
behaviour those routines can have, constrained only by their documented
contracts (a bracketing root finder returns a point of the bracket; a bounded
scalar minimizer returns a point of the bounds).
-/

namespace ChemSim

section Defs

variable {α : Type} [LinearOrderedField α]

/-- The `model_type` strings dispatched on by the Python code
(`'wilson'`, `'nrtl'`, `'uniquac'`, anything else). -/
inductive ModelType where
  | wilson
  | nrtl
  | uniquac
  | other
deriving DecidableEq

/-- Embeds `ThermoMath.R = 8.314462618` (J / mol K), the ideal gas constant. -/
def Rgas : α := 8314462618 / 10 ^ 9

/-- Embeds `ThermoMath.activity_wilson(x1, lambda_12, lambda_21)`:
γ₁ by the Wilson model; returns the sentinel `1e6` when either
denominator term is non-positive. -/
def activity_wilson (exp log : α → α) (x1 lambda_12 lambda_21 : α) : α :=
  let x2 := 1 - x1
  let term1 := x1 + lambda_12 * x2
  let term2 := x2 + lambda_21 * x1
  if term1 ≤ 0 ∨ term2 ≤ 0 then 1000000
  else exp (-log term1 + x2 * (lambda_12 / term1 - lambda_21 / term2))

/-- Embeds `ThermoMath.activity_nrtl(x1, tau_12, tau_21, alpha=0.3)`:
γ₁ by the NRTL model. -/
def activity_nrtl (exp : α → α) (x1 tau_12 tau_21 alpha : α) : α :=
  let x2 := 1 - x1
  let G12 := exp (-alpha * tau_12)
  let G21 := exp (-alpha * tau_21)
  let term1 := tau_21 * (G21 / (x1 + x2 * G21)) ^ 2
  let term2 := (tau_12 * G12) / ((x2 + x1 * G12) ^ 2)
  exp (x2 ^ 2 * (term1 + term2))

/-- Embeds `ThermoMath.activity_uniquac(x1, tau12, tau21, r1, q1, r2, q2, z=10)`:
γ₁ by UNIQUAC.  Note that, as in the source, `x2` is computed from the
*unclamped* `x1`; only `x1` itself is clamped into `[1e-10, 1 - 1e-10]`. -/
def activity_uniquac (exp log : α → α) (x1in tau12 tau21 r1 q1 r2 q2 z : α) : α :=
  let x2 := 1 - x1in
  let x1 := max (1/10^10) (min x1in (1 - 1/10^10))
  let sum_xr := x1 * r1 + x2 * r2
  let sum_xq := x1 * q1 + x2 * q2
  let phi1 := (x1 * r1) / sum_xr
  let theta1 := (x1 * q1) / sum_xq
  let theta2 := (x2 * q2) / sum_xq
  let l1 := (z/2) * (r1 - q1) - (r1 - 1)
  let l2 := (z/2) * (r2 - q2) - (r2 - 1)
  let ln_gamma_C := log (phi1/x1) + (z/2) * q1 * log (theta1/phi1)
      + l1 - (phi1/x1) * (x1 * l1 + x2 * l2)
  let val1 := theta1 + theta2 * tau21
  let val2 := theta2 + theta1 * tau12
  let ln_gamma_R := q1 * (1 - log val1 - (theta1/val1) - (theta2 * tau12 / val2))
  exp (ln_gamma_C + ln_gamma_R)

/-- Embeds the `params` dict handed to `solve_sle_solubility`: keys `p12` and
`p21`, with the optional `alpha` (default 0.3) and the UNIQUAC shape values
`r1,q1,r2,q2` (defaults 1.0) resolved by whoever builds this record. -/
structure ActivityParams (α : Type) where
  p12 : α
  p21 : α
  alpha : α
  r1 : α
  q1 : α
  r2 : α
  q2 : α

/-- Embeds the dispatch of γ(x) on `model_type` inside
`solve_sle_solubility.error_func` (an unknown model name gives γ = 1). -/
def gammaOf (exp log : α → α) (model : ModelType) (p : ActivityParams α) (x : α) : α :=
  match model with
  | .wilson => activity_wilson exp log x p.p12 p.p21
  | .nrtl => activity_nrtl exp x p.p12 p.p21 p.alpha
  | .uniquac => activity_uniquac exp log x p.p12 p.p21 p.r1 p.q1 p.r2 p.q2 10
  | .other => 1

/-- Embeds the ideal-solubility target of `solve_sle_solubility`:
`target_val = exp((Hfus/R) * (1/Tm - 1/T_op))`. -/
def target_val (exp : α → α) (T_op Tm Hfus : α) : α :=
  exp ((Hfus / Rgas) * (1/Tm - 1/T_op))

/-- Embeds `error_func(x)` of `solve_sle_solubility`: `-target` at or below
`1e-9`, `1 - target` at or above `1`, otherwise `x·γ(x) - target`.  (The
Python `try/except -> 1e6` guard has nothing to catch over a field: every
activity evaluator above is total.) -/
def error_func (exp log : α → α) (T_op Tm Hfus : α) (model : ModelType)
    (p : ActivityParams α) (x : α) : α :=
  let t := target_val exp T_op Tm Hfus
  if x ≤ 1/10^9 then -t
  else if 1 ≤ x then 1 - t
  else x * gammaOf exp log model p x - t

/-- Embeds `ThermoMath.solve_sle_solubility(T_op, Tm, Hfus, model_type, params)`.
`brentq f a b` models `scipy.optimize.brentq(f, a, b)`, with `none` for the
`ValueError` raised when `f(a)` and `f(b)` have the same sign (caught by the
source's `except`); `minimize_scalar f a b` models the bounded
`scipy.optimize.minimize_scalar(f, bounds=(a, b), method='bounded').x`. -/
def solve_sle_solubility (exp log : α → α)
    (brentq : (α → α) → α → α → Option α)
    (minimize_scalar : (α → α) → α → α → α)
    (T_op Tm Hfus : α) (model : ModelType) (p : ActivityParams α) : α :=
  if Tm ≤ T_op then 1
  else
    let f := error_func exp log T_op Tm Hfus model p
    match brentq f (1/10^9) (9999/10000) with
    | some sol => sol
    | none => minimize_scalar (fun x => (f x) ^ 2) 0 1

end Defs

section SolverTheorems

variable {α : Type} [LinearOrderedField α]

/-- C1: for every operating temperature `T_op`, melting temperature `Tm`,
fusion enthalpy, model type and parameter set, if `T_op ≥ Tm` then
`solve_sle_solubility` returns exactly 1.0.  The root finder, the fallback
minimizer and the activity model (through `exp`/`log`) are universally
quantified, so the result cannot depend on evaluating any of them. -/
theorem solve_sle_solubility_above_melting
    (exp log : α → α) (brentq : (α → α) → α → α → Option α)
    (minimize_scalar : (α → α) → α → α → α)
    (T_op Tm Hfus : α) (model : ModelType) (p : ActivityParams α)
    (h : Tm ≤ T_op) :
    solve_sle_solubility exp log brentq minimize_scalar T_op Tm Hfus model p = 1 := by
  simp [solve_sle_solubility, h]

/-- Witness for C1 at concrete inputs (`T_op = Tm = 300`). -/
theorem solve_sle_solubility_above_melting_witness :
    (300 : ℚ) ≤ 300 ∧
      solve_sle_solubility (α := ℚ) id id (fun _ _ _ => none) (fun _ a _ => a)
        300 300 1000 ModelType.wilson ⟨1, 1, 3/10, 1, 1, 1, 1⟩ = 1 :=
  ⟨le_refl 300,
    solve_sle_solubility_above_melting id id (fun _ _ _ => none) (fun _ a _ => a)
      300 300 1000 ModelType.wilson ⟨1, 1, 3/10, 1, 1, 1, 1⟩ (le_refl 300)⟩

/-- C2: below the melting point the solver always returns a value in [0,1]:
any value the bracketing root finder returns lies in the bracket
`(1e-9, 0.9999) ⊆ [0,1]`, and when it signals failure (`none`, covering the
no-sign-change `ValueError` caught by the source) the bounded minimizer over
`[0,1]` is used, whose result lies in its bounds.  The two scipy routines are
quantified over, constrained only by their documented range contracts, and
the embedding is a total function (nothing escapes: the source catches every
exception from `brentq` and the bounded minimizer raises none). -/
theorem solve_sle_solubility_in_unit_interval
    (exp log : α → α) (brentq : (α → α) → α → α → Option α)
    (minimize_scalar : (α → α) → α → α → α)
    (hbrentq : ∀ f a b x, brentq f a b = some x → a ≤ x ∧ x ≤ b)
    (hmin : ∀ f a b, a ≤ b → a ≤ minimize_scalar f a b ∧ minimize_scalar f a b ≤ b)
    (T_op Tm Hfus : α) (model : ModelType) (p : ActivityParams α)
    (h : T_op < Tm) :
    0 ≤ solve_sle_solubility exp log brentq minimize_scalar T_op Tm Hfus model p ∧
      solve_sle_solubility exp log brentq minimize_scalar T_op Tm Hfus model p ≤ 1 := by
  have hnot : ¬ Tm ≤ T_op := not_le.mpr h
  cases hb : brentq (error_func exp log T_op Tm Hfus model p) (1/10^9) (9999/10000) with
  | some sol =>
      obtain ⟨hlo, hhi⟩ := hbrentq _ _ _ _ hb
      have h1 : (0 : α) ≤ 1/10^9 := by positivity
      have h2 : (9999 : α)/10000 ≤ 1 := by norm_num
      simp only [solve_sle_solubility, if_neg hnot, hb]
      exact ⟨le_trans h1 hlo, le_trans hhi h2⟩
  | none =>
      simp only [solve_sle_solubility, if_neg hnot, hb]
      exact hmin _ 0 1 (by norm_num)

/-- Witness for C2 at concrete inputs: a root finder that always fails and a
minimizer that returns its lower bound satisfy the range contracts, and the
solver value at `T_op = 280 < Tm = 300` lies in [0,1]. -/
theorem solve_sle_solubility_in_unit_interval_witness :
    (280 : ℚ) < 300 ∧
      (0 ≤ solve_sle_solubility (α := ℚ) id id (fun _ _ _ => none) (fun _ a _ => a)
          280 300 1000 ModelType.nrtl ⟨1, 1, 3/10, 1, 1, 1, 1⟩ ∧
        solve_sle_solubility (α := ℚ) id id (fun _ _ _ => none) (fun _ a _ => a)
          280 300 1000 ModelType.nrtl ⟨1, 1, 3/10, 1, 1, 1, 1⟩ ≤ 1) :=
  ⟨by norm_num,
    solve_sle_solubility_in_unit_interval id id (fun _ _ _ => none) (fun _ a _ => a)
      (fun _ _ _ x hx => by cases hx)
      (fun _ a b hab => ⟨le_refl a, hab⟩)
      280 300 1000 ModelType.nrtl ⟨1, 1, 3/10, 1, 1, 1, 1⟩ (by norm_num)⟩

end SolverTheorems

/-- C6: the Wilson activity evaluator (instantiated with the real
exponential and logarithm) returns γ₁ = 1 for every `x1 ∈ (0,1)` when
`Λ₁₂ = Λ₂₁ = 1`: both denominator terms collapse to 1, so the guard is not
taken and `ln γ₁ = -ln 1 + x₂·(1 - 1) = 0`. -/
theorem activity_wilson_ideal (x1 : ℝ) (h1 : 0 < x1) (h2 : x1 < 1) :
    activity_wilson Real.exp Real.log x1 1 1 = 1 := by
  simp only [activity_wilson]
  rw [show x1 + 1 * (1 - x1) = 1 by ring, show 1 - x1 + 1 * x1 = 1 by ring]
  norm_num [Real.log_one, Real.exp_zero]

/-- Witness for C6 at `x1 = 1/2`. -/
theorem activity_wilson_ideal_witness :
    (0 : ℝ) < 1/2 ∧ (1 : ℝ)/2 < 1 ∧
      activity_wilson Real.exp Real.log (1/2) 1 1 = 1 :=
  ⟨by norm_num, by norm_num, activity_wilson_ideal (1/2) (by norm_num) (by norm_num)⟩

section RdfDefs

variable {α : Type} [LinearOrderedField α]

/-- Embeds `ThermoMath.calculate_local_composition_ratio(n_ij, n_jj)`:
elementwise `n_ij / n_jj` with the explicit post-division correction
`omega[n_jj == 0] = 0.0`.  (The subsequent `np.nan_to_num(..., posinf=0,
neginf=0)` has nothing left to correct once the zero-denominator positions
are forced to 0: over a field no other position is exceptional.) -/
def calculate_local_composition_ratio (n_ij n_jj : List α) : List α :=
  List.zipWith (fun a b => if b = 0 then 0 else a / b) n_ij n_jj

/-- Embeds `scipy.integrate.cumulative_trapezoid(y, x, initial=0)`, split in
two: the per-interval trapezoid areas `(x[i+1]-x[i])·(y[i]+y[i+1])/2` … -/
def trapIncrements : List α → List α → List α
  | x0 :: x1 :: xs, y0 :: y1 :: ys =>
      (x1 - x0) * (y0 + y1) / 2 :: trapIncrements (x1 :: xs) (y1 :: ys)
  | _, _ => []

/-- Second half of `cumulative_trapezoid`: the running sum of the
per-interval areas, prefixed with the `initial=0` value. -/
def cumulative_trapezoid (y x : List α) : List α :=
  (trapIncrements x y).scanl (· + ·) 0

/-- Embeds `ThermoMath.calculate_coordination_number(r_nm, g_r,
number_density_j)`: the cumulative trapezoidal integral of the integrand
`4·pi·r²·g(r)`, scaled by the number density.  `pi` stands for the library
constant `np.pi` (instantiated with `Real.pi`). -/
def calculate_coordination_number (pi : α) (r_nm g_r : List α)
    (number_density_j : α) : List α :=
  let integrand := List.zipWith (fun ri gi => 4 * pi * ri ^ 2 * gi) r_nm g_r
  let cumulative_integral := cumulative_trapezoid integrand r_nm
  cumulative_integral.map (fun c => number_density_j * c)

end RdfDefs

section RdfLemmas

variable {α : Type} [LinearOrderedField α]

lemma trapIncrements_length :
    ∀ x y : List α, (trapIncrements x y).length = min x.length y.length - 1 := by
  intro x
  induction x with
  | nil => intro y; simp [trapIncrements]
  | cons x0 xt ih =>
      intro y
      cases xt with
      | nil =>
          cases y with
          | nil => simp [trapIncrements]
          | cons y0 yt => cases yt <;> simp [trapIncrements]
      | cons x1 xs =>
          cases y with
          | nil => simp [trapIncrements]
          | cons y0 yt =>
              cases yt with
              | nil => simp [trapIncrements]
              | cons y1 ys =>
                  have h := ih (y1 :: ys)
                  simp only [trapIncrements, List.length_cons, h]
                  omega

lemma trapIncrements_nonneg :
    ∀ x y : List α, x.Chain' (· < ·) → (∀ a ∈ y, 0 ≤ a) →
      ∀ d ∈ trapIncrements x y, 0 ≤ d := by
  intro x
  induction x with
  | nil => intro y _ _ d hd; simp [trapIncrements] at hd
  | cons x0 xt ih =>
      intro y hchain hy d hd
      cases xt with
      | nil =>
          cases y with
          | nil => simp [trapIncrements] at hd
          | cons y0 yt => cases yt <;> simp [trapIncrements] at hd
      | cons x1 xs =>
          cases y with
          | nil => simp [trapIncrements] at hd
          | cons y0 yt =>
              cases yt with
              | nil => simp [trapIncrements] at hd
              | cons y1 ys =>
                  simp only [trapIncrements, List.mem_cons] at hd
                  rcases hd with rfl | hd
                  · have hx : x0 < x1 := (List.chain'_cons.mp hchain).1
                    have hy0 : (0:α) ≤ y0 := hy _ (by simp)
                    have hy1 : (0:α) ≤ y1 := hy _ (by simp)
                    have : (0:α) ≤ (x1 - x0) * (y0 + y1) :=
                      mul_nonneg (by linarith) (by linarith)
                    linarith
                  · exact ih (y1 :: ys) (List.chain'_cons.mp hchain).2
                      (fun a ha => hy a (List.mem_cons_of_mem _ ha)) d hd

lemma scanl_add_chain' :
    ∀ (l : List α) (a : α), (∀ d ∈ l, 0 ≤ d) →
      (l.scanl (· + ·) a).Chain' (· ≤ ·) := by
  intro l
  induction l with
  | nil => intro a _; simp [List.scanl]
  | cons d t ih =>
      intro a hl
      rw [List.scanl_cons]
      simp only [List.singleton_append]
      rw [List.chain'_cons']
      constructor
      · intro y hy
        have hhead : (List.scanl (· + ·) (a + d) t).head? = some (a + d) := by
          cases t <;> simp [List.scanl]
        rw [hhead] at hy
        cases hy
        have : (0:α) ≤ d := hl d (by simp)
        linarith
      · exact ih (a + d) (fun e he => hl e (List.mem_cons_of_mem _ he))

lemma zipWith_integrand_nonneg (pi : α) (hpi : 0 ≤ pi) :
    ∀ r g : List α, (∀ a ∈ g, 0 ≤ a) →
      ∀ a ∈ List.zipWith (fun ri gi => 4 * pi * ri ^ 2 * gi) r g, 0 ≤ a := by
  intro r
  induction r with
  | nil => intro g _ a ha; simp at ha
  | cons r0 rt ih =>
      intro g hg a ha
      cases g with
      | nil => simp at ha
      | cons g0 gt =>
          simp only [List.zipWith_cons_cons, List.mem_cons] at ha
          rcases ha with rfl | ha
          · have h0 : (0:α) ≤ g0 := hg _ (by simp)
            have : (0:α) ≤ 4 * pi * r0 ^ 2 := by positivity
            exact mul_nonneg this h0
          · exact ih gt (fun b hb => hg b (List.mem_cons_of_mem _ hb)) a ha

end RdfLemmas

/-- C3: for equal-length inputs, `calculate_local_composition_ratio` returns
a list of the same length; at every position where `n_jj` is 0 the output is
exactly 0 (never an exceptional value), and at every other position it is the
ordinary quotient `n_ij / n_jj`. -/
theorem local_composition_ratio_zero_guard {α : Type} [LinearOrderedField α]
    (n_ij n_jj : List α) (i : ℕ)
    (hlen : n_ij.length = n_jj.length) (hi : i < n_jj.length) :
    ( calculate_local_composition_ratio n_ij n_jj).length = n_jj.length ∧
      ( calculate_local_composition_ratio n_ij n_jj).getD i 0 =
        (if n_jj.getD i 0 = 0 then 0 else n_ij.getD i 0 / n_jj.getD i 0) := by
  have hlen2 : ( calculate_local_composition_ratio n_ij n_jj).length = n_jj.length := by
    simp [ calculate_local_composition_ratio, hlen]
  refine ⟨hlen2, ?_⟩
  have hi2 : i < ( calculate_local_composition_ratio n_ij n_jj).length := hlen2 ▸ hi
  have hi1 : i < n_ij.length := by omega
  rw [List.getD_eq_getElem _ _ hi2, List.getD_eq_getElem _ _ hi,
    List.getD_eq_getElem _ _ hi1]
  simp [ calculate_local_composition_ratio]

/-- Witness for C3: `n_ij = [1, 2]`, `n_jj = [0, 4]` — position 0 has a zero
denominator and yields exactly 0, position 1 yields the quotient `2/4`. -/
theorem local_composition_ratio_zero_guard_witness :
    ([1, 2] : List ℚ).length = ([0, 4] : List ℚ).length ∧
      ( calculate_local_composition_ratio ([1, 2] : List ℚ) [0, 4]).getD 0 0 = 0 ∧
      ( calculate_local_composition_ratio ([1, 2] : List ℚ) [0, 4]).getD 1 0 = 2 / 4 :=
  ⟨rfl,
    by
      have h := (local_composition_ratio_zero_guard ([1, 2] : List ℚ) [0, 4] 0
        rfl (by norm_num)).2
      simpa using h,
    by
      have h := (local_composition_ratio_zero_guard ([1, 2] : List ℚ) [0, 4] 1
        rfl (by norm_num)).2
      simpa using h⟩

/-- C4: for a strictly increasing radius axis of length ≥ 2, a nonnegative
`g` of the same length and a nonnegative density, the coordination-number
profile (density times the cumulative trapezoidal integral of `4π·r²·g`) has
the same length as `r`, starts at 0, and is non-decreasing along `r`. -/
theorem coordination_number_monotone (r g : List ℝ) (ρ : ℝ)
    (hr : r.Chain' (· < ·)) (hlen : g.length = r.length)
    (hg : ∀ a ∈ g, 0 ≤ a) (hρ : 0 ≤ ρ) (hN : 2 ≤ r.length) :
    (calculate_coordination_number Real.pi r g ρ).length = r.length ∧
      (calculate_coordination_number Real.pi r g ρ).head? = some 0 ∧
      (calculate_coordination_number Real.pi r g ρ).Chain' (· ≤ ·) := by
  set integrand := List.zipWith (fun ri gi => 4 * Real.pi * ri ^ 2 * gi) r g with hintg
  have hlen_intg : integrand.length = r.length := by
    simp [hintg, hlen]
  have hinc_len : (trapIncrements r integrand).length = r.length - 1 := by
    rw [trapIncrements_length, hlen_intg]; omega
  have hinc_nonneg : ∀ d ∈ trapIncrements r integrand, 0 ≤ d :=
    trapIncrements_nonneg r integrand hr
      (zipWith_integrand_nonneg Real.pi Real.pi_pos.le r g hg)
  refine ⟨?_, ?_, ?_⟩
  · simp only [calculate_coordination_number, cumulative_trapezoid,
      List.length_map, List.length_scanl]
    rw [hinc_len]; omega
  · simp only [calculate_coordination_number, cumulative_trapezoid]
    cases trapIncrements r integrand <;> simp [List.scanl]
  · simp only [calculate_coordination_number, cumulative_trapezoid]
    rw [List.chain'_map]
    have hchain := scanl_add_chain' (trapIncrements r integrand) 0 hinc_nonneg
    exact hchain.imp (fun a b hab => mul_le_mul_of_nonneg_left hab hρ)

/-- Witness for C4: `r = [0, 1, 2]`, `g = [1, 1, 1]`, `ρ = 33`. -/
theorem coordination_number_monotone_witness :
    (calculate_coordination_number Real.pi [0, 1, 2] [1, 1, 1] 33).length =
        ([0, 1, 2] : List ℝ).length ∧
      (calculate_coordination_number Real.pi [0, 1, 2] [1, 1, 1] 33).head? = some 0 ∧
      (calculate_coordination_number Real.pi [0, 1, 2] [1, 1, 1] 33).Chain' (· ≤ ·) :=
  coordination_number_monotone [0, 1, 2] [1, 1, 1] 33
    (by norm_num [List.chain'_cons]) (by simp)
    (by intro a ha; simp at ha; rcases ha with rfl | rfl | rfl <;> norm_num)
    (by norm_num) (by simp)

section FitDefs

variable {α : Type} [LinearOrderedField α]

/-- The two values of `opt_method` in `ThermoOptimizer.fit_interaction_energies`. -/
inductive OptMethod where
  | theoretical
  | empirical
deriving DecidableEq

/-- The result dict of `fit_interaction_energies`:
`{'energy': …, 'params': […], 'error': …}`. -/
structure FitResult (α : Type) where
  energy : α
  params : List α
  error : α
deriving DecidableEq

/-- Embeds the `active_mask` filtering loop (a missing mask means all points
active; otherwise the i-th point is kept when the i-th mask entry is True —
the source indexes the lists by the mask positions, which for the intended
equal-length inputs is this zip). -/
def maskFilter (temps ps : List α) (mask : Option (List Bool)) : List (α × α) :=
  match mask with
  | none => temps.zip ps
  | some m => ((m.zip (temps.zip ps)).filter (fun q => q.1)).map (fun q => q.2)

/-- Embeds `np.mean(res**2)`. -/
def meanSq (l : List α) : α := (l.map (fun e => e ^ 2)).sum / l.length

/-- Embeds `np.polyfit(X_arr, Y_arr, 1)`, returning `(slope, intercept)`.
numpy solves the degree-1 least-squares problem; this closed form is its
unique solution whenever the X values are not all equal (the regime of the
optimality theorem below, which proves it minimizes the sum of squares). -/
def polyfit1 (X Y : List α) : α × α :=
  let n : α := X.length
  let Sx := X.sum
  let Sy := Y.sum
  let Sxy := (List.zipWith (fun x y => x * y) X Y).sum
  let Sxx := (X.map (fun x => x ^ 2)).sum
  let slope := (n * Sxy - Sx * Sy) / (n * Sxx - Sx ^ 2)
  let intercept := (Sy - slope * Sx) / n
  (slope, intercept)

/-- Embeds `X = 1.0 / T_arr` of the empirical branch. -/
def empiricalX (T_arr : List α) : List α := T_arr.map (fun t => 1 / t)

/-- Embeds the `Y_arr` selection of the empirical branch: the observed
parameter itself for NRTL, `np.log(np.maximum(P_arr, 1e-10))` otherwise. -/
def empiricalY (log : α → α) (model : ModelType) (P_arr : List α) : List α :=
  match model with
  | .nrtl => P_arr
  | _ => P_arr.map (fun p => log (max p (1/10^10)))

/-- Embeds `ThermoOptimizer.fit_interaction_energies(temperature_list,
param_list, model_type, opt_method, active_mask)`.  `least_squares r g`
models the scalar returned by `scipy.optimize.least_squares(r, [g])` in the
theoretical branch; `sqrt` and `log` model `np.sqrt` / `np.log`. -/
def fit_interaction_energies (sqrt log : α → α)
    (least_squares : (α → List α) → α → α)
    (temps ps : List α) (model : ModelType) (optMethod : OptMethod)
    (mask : Option (List Bool)) : FitResult α :=
  let pairs := maskFilter temps ps mask
  let T_arr := pairs.map (fun q => q.1)
  let P_arr := pairs.map (fun q => q.2)
  if T_arr.length = 0 then ⟨0, [0, 0], 0⟩
  else
    match optMethod with
    | .theoretical =>
        let residuals : α → List α := fun dg =>
          match model with
          | .nrtl => pairs.map (fun q => q.2 - dg / (Rgas * q.1))
          | _ => pairs.map (fun q => log (max q.2 (1/10^10)) + dg / (Rgas * q.1))
        let dg := least_squares residuals 1000
        ⟨dg, [0, dg / Rgas], sqrt (meanSq (residuals dg))⟩
    | .empirical =>
        let X_arr := empiricalX T_arr
        let Y_arr := empiricalY log model P_arr
        let B := (polyfit1 X_arr Y_arr).1
        let A := (polyfit1 X_arr Y_arr).2
        let Y_pred := X_arr.map (fun x => A + B * x)
        ⟨0, [A, B], sqrt (meanSq (List.zipWith (fun y yp => y - yp) Y_arr Y_pred))⟩

end FitDefs

section FitLemmas

variable {α : Type} [LinearOrderedField α]

lemma zipWith_fst_snd {β : Type} (h : α → α → β) (data : List (α × α)) :
    List.zipWith h (data.map (fun q => q.1)) (data.map (fun q => q.2)) =
      data.map (fun q => h q.1 q.2) := by
  induction data with
  | nil => simp
  | cons q t ih => simp [ih]

lemma sum_sub_affine (data : List (α × α)) (A B : α) :
    (data.map (fun q => q.2 - (A + B * q.1))).sum =
      (data.map (fun q => q.2)).sum - A * data.length -
        B * (data.map (fun q => q.1)).sum := by
  induction data with
  | nil => simp
  | cons q t ih =>
      simp only [List.map_cons, List.sum_cons, ih, List.length_cons]
      push_cast
      ring

lemma sum_sub_affine_mul (data : List (α × α)) (A B : α) :
    (data.map (fun q => (q.2 - (A + B * q.1)) * q.1)).sum =
      (data.map (fun q => q.1 * q.2)).sum - A * (data.map (fun q => q.1)).sum -
        B * (data.map (fun q => q.1 ^ 2)).sum := by
  induction data with
  | nil => simp
  | cons q t ih =>
      simp only [List.map_cons, List.sum_cons, ih]
      ring

lemma sum_sq_expand (data : List (α × α)) (A B d e : α) :
    (data.map (fun q => (q.2 - ((A + d) + (B + e) * q.1)) ^ 2)).sum =
      (data.map (fun q => (q.2 - (A + B * q.1)) ^ 2)).sum
      - 2 * d * (data.map (fun q => q.2 - (A + B * q.1))).sum
      - 2 * e * (data.map (fun q => (q.2 - (A + B * q.1)) * q.1)).sum
      + d ^ 2 * data.length + 2 * d * e * (data.map (fun q => q.1)).sum
      + e ^ 2 * (data.map (fun q => q.1 ^ 2)).sum := by
  induction data with
  | nil => simp
  | cons q t ih =>
      simp only [List.map_cons, List.sum_cons, ih, List.length_cons]
      push_cast
      ring

lemma sum_sq_minimal (data : List (α × α)) (A B : α)
    (hSR : (data.map (fun q => q.2 - (A + B * q.1))).sum = 0)
    (hSRx : (data.map (fun q => (q.2 - (A + B * q.1)) * q.1)).sum = 0)
    (hquad : ∀ d e : α, 0 ≤ d ^ 2 * data.length
        + 2 * d * e * (data.map (fun q => q.1)).sum
        + e ^ 2 * (data.map (fun q => q.1 ^ 2)).sum)
    (a b : α) :
    (data.map (fun q => (q.2 - (A + B * q.1)) ^ 2)).sum ≤
      (data.map (fun q => (q.2 - (a + b * q.1)) ^ 2)).sum := by
  have hexp := sum_sq_expand data A B (a - A) (b - B)
  rw [show A + (a - A) = a by ring, show B + (b - B) = b by ring] at hexp
  rw [hSR, hSRx] at hexp
  have hq := hquad (a - A) (b - B)
  rw [hexp]
  linarith

end FitLemmas

/-- C7: whenever the `active_mask` filtering leaves zero points (an empty
temperature list, an all-False mask, …), `fit_interaction_energies` returns
the zero-valued FitResult `energy=0, params=[0,0], error=0` without touching
either fitting branch (the scipy solver is universally quantified). -/
theorem fit_zero_active_points {α : Type} [LinearOrderedField α]
    (sqrt log : α → α) (least_squares : (α → List α) → α → α)
    (temps ps : List α) (model : ModelType) (optMethod : OptMethod)
    (mask : Option (List Bool))
    (h : maskFilter temps ps mask = []) :
    fit_interaction_energies sqrt log least_squares temps ps model optMethod mask =
      ⟨0, [0, 0], 0⟩ := by
  simp [fit_interaction_energies, h]

/-- Witness for C7: a nonempty series with an all-False mask. -/
theorem fit_zero_active_points_witness :
    maskFilter ([300, 310] : List ℚ) [1, 2] (some [false, false]) = [] ∧
      fit_interaction_energies (α := ℚ) id id (fun _ _ => 0)
        [300, 310] [1, 2] ModelType.nrtl OptMethod.empirical (some [false, false]) =
        ⟨0, [0, 0], 0⟩ :=
  ⟨rfl,
    fit_zero_active_points id id (fun _ _ => 0) [300, 310] [1, 2]
      ModelType.nrtl OptMethod.empirical (some [false, false]) rfl⟩

section FitOptimality

variable {α : Type} [LinearOrderedField α]

/-- Pointwise form of the `Y_arr` selection of the empirical branch. -/
def empiricalYpoint (log : α → α) (model : ModelType) (p : α) : α :=
  match model with
  | .nrtl => p
  | _ => log (max p (1/10^10))

lemma empiricalY_eq_map (log : α → α) (model : ModelType) (ps : List α) :
    empiricalY log model ps = ps.map (empiricalYpoint log model) := by
  cases model with
  | nrtl => exact (List.map_id ps).symm
  | wilson => rfl
  | uniquac => rfl
  | other => rfl

lemma zip_map_proj {γ δ : Type} (f : α → γ) (g : α → δ) :
    ∀ l l' : List α, l.length = l'.length →
      ((l.zip l').map (fun q => (f q.1, g q.2))).map (fun q => q.1) = l.map f ∧
      ((l.zip l').map (fun q => (f q.1, g q.2))).map (fun q => q.2) = l'.map g ∧
      ((l.zip l').map (fun q => (f q.1, g q.2))).length = l.length := by
  intro l
  induction l with
  | nil =>
      intro l' h
      have : l' = [] := List.length_eq_zero.mp h.symm
      subst this
      simp
  | cons x xt ih =>
      intro l' h
      cases l' with
      | nil => simp at h
      | cons y yt =>
          have h' : xt.length = yt.length := by simpa using h
          obtain ⟨h1, h2, h3⟩ := ih yt h'
          simp [h1, h2, h3]

lemma polyfit_data_optimal (data : List (α × α))
    (hD : 0 < (data.length : α) * (data.map (fun q => q.1 ^ 2)).sum
        - ((data.map (fun q => q.1)).sum) ^ 2) (a b : α) :
    (data.map (fun q => (q.2 -
        ((polyfit1 (data.map (fun q => q.1)) (data.map (fun q => q.2))).2 +
          (polyfit1 (data.map (fun q => q.1)) (data.map (fun q => q.2))).1 * q.1)) ^ 2)).sum ≤
      (data.map (fun q => (q.2 - (a + b * q.1)) ^ 2)).sum := by
  have hne : data ≠ [] := by
    rintro rfl
    simp at hD
  have hNnat : 0 < data.length := List.length_pos.mpr hne
  have hN : (0 : α) < (data.length : α) := by exact_mod_cast hNnat
  have hNne : ((data.length : α)) ≠ 0 := ne_of_gt hN
  have hDne : (data.length : α) * (data.map (fun q => q.1 ^ 2)).sum
      - ((data.map (fun q => q.1)).sum) ^ 2 ≠ 0 := ne_of_gt hD
  have hpf : polyfit1 (data.map (fun q => q.1)) (data.map (fun q => q.2)) =
      (((data.length : α) * (data.map (fun q => q.1 * q.2)).sum
          - (data.map (fun q => q.1)).sum * (data.map (fun q => q.2)).sum) /
        ((data.length : α) * (data.map (fun q => q.1 ^ 2)).sum
          - ((data.map (fun q => q.1)).sum) ^ 2),
       ((data.map (fun q => q.2)).sum -
          (((data.length : α) * (data.map (fun q => q.1 * q.2)).sum
            - (data.map (fun q => q.1)).sum * (data.map (fun q => q.2)).sum) /
           ((data.length : α) * (data.map (fun q => q.1 ^ 2)).sum
            - ((data.map (fun q => q.1)).sum) ^ 2)) * (data.map (fun q => q.1)).sum) /
        (data.length : α)) := by
    simp only [polyfit1, List.length_map, List.map_map, zipWith_fst_snd, Function.comp]
    rfl
  rw [hpf]
  simp only
  apply sum_sq_minimal
  · rw [sum_sub_affine]
    field_simp
    ring
  · rw [sum_sub_affine_mul]
    field_simp
    ring
  · intro d e
    nlinarith [sq_nonneg (d * (data.length : α) + e * (data.map (fun q => q.1)).sum),
      mul_nonneg (sq_nonneg e) (le_of_lt hD), hN, sq_nonneg d, sq_nonneg e]

end FitOptimality

/-- C5: on a non-empty series (no mask; `1/T` values not all equal, which is
the regime where the degree-1 least-squares problem `np.polyfit` solves has a
unique solution), the empirical branch of `fit_interaction_energies` returns
`energy = 0`, `params = [A, B]` with `A` the intercept and `B` the slope of
the closed-form linear least-squares fit of `Y` against `X = 1/T`, and
`error` the root-mean-square of `Y - (A + B·X)`; and `(A, B)` minimizes the
sum of squared residuals over all candidate lines `(a, b)`.  Determinism
(identical `(A, B)` on two calls with the same series) is immediate: the
embedding is a pure function of its arguments. -/
theorem fit_empirical_exact_least_squares {α : Type} [LinearOrderedField α]
    (sqrt log : α → α) (least_squares : (α → List α) → α → α)
    (temps ps : List α) (model : ModelType) (a b : α)
    (hlen : temps.length = ps.length) (hne : temps ≠ [])
    (hD : 0 < (temps.length : α) * ((empiricalX temps).map (fun x => x ^ 2)).sum
        - ((empiricalX temps).sum) ^ 2) :
    fit_interaction_energies sqrt log least_squares temps ps model .empirical none =
      ⟨0,
        [(polyfit1 (empiricalX temps) (empiricalY log model ps)).2,
          (polyfit1 (empiricalX temps) (empiricalY log model ps)).1],
        sqrt (meanSq (List.zipWith (fun y yp => y - yp)
          (empiricalY log model ps)
          ((empiricalX temps).map (fun x =>
            (polyfit1 (empiricalX temps) (empiricalY log model ps)).2 +
              (polyfit1 (empiricalX temps) (empiricalY log model ps)).1 * x))))⟩ ∧
      (List.zipWith (fun x y => (y -
          ((polyfit1 (empiricalX temps) (empiricalY log model ps)).2 +
            (polyfit1 (empiricalX temps) (empiricalY log model ps)).1 * x)) ^ 2)
        (empiricalX temps) (empiricalY log model ps)).sum ≤
      (List.zipWith (fun x y => (y - (a + b * x)) ^ 2)
        (empiricalX temps) (empiricalY log model ps)).sum := by
  have hT : ((maskFilter temps ps none).map (fun q => q.1)) = temps := by
    simp only [maskFilter]
    exact List.map_fst_zip temps ps (le_of_eq hlen)
  have hP : ((maskFilter temps ps none).map (fun q => q.2)) = ps := by
    simp only [maskFilter]
    exact List.map_snd_zip temps ps (le_of_eq hlen.symm)
  have hlen0 : ¬ temps.length = 0 := fun h => hne (List.length_eq_zero.mp h)
  constructor
  · simp only [fit_interaction_energies, hT, hP, hlen0, if_false]
  · obtain ⟨hfst, hsnd, hlend⟩ :=
      zip_map_proj (fun t => (1 : α)/t) (empiricalYpoint log model) temps ps hlen
    have hfst' : ((temps.zip ps).map
        (fun q => ((1 : α)/q.1, empiricalYpoint log model q.2))).map (fun q => q.1) =
        empiricalX temps := hfst
    have hsnd' : ((temps.zip ps).map
        (fun q => ((1 : α)/q.1, empiricalYpoint log model q.2))).map (fun q => q.2) =
        empiricalY log model ps := by
      rw [hsnd, ← empiricalY_eq_map]
    have e1 : ((temps.zip ps).map
        (fun q => ((1 : α)/q.1, empiricalYpoint log model q.2))).map (fun q => q.1 ^ 2) =
        (empiricalX temps).map (fun x => x ^ 2) := by
      rw [← hfst']
      conv_rhs => rw [List.map_map]
      rfl
    have hD' : 0 < ((((temps.zip ps).map
          (fun q => ((1 : α)/q.1, empiricalYpoint log model q.2))).length : α)) *
          (((temps.zip ps).map
            (fun q => ((1 : α)/q.1, empiricalYpoint log model q.2))).map
              (fun q => q.1 ^ 2)).sum -
          ((((temps.zip ps).map
            (fun q => ((1 : α)/q.1, empiricalYpoint log model q.2))).map
              (fun q => q.1)).sum) ^ 2 := by
      rw [e1, hfst', hlend]
      exact hD
    have hopt := polyfit_data_optimal
      ((temps.zip ps).map (fun q => ((1 : α)/q.1, empiricalYpoint log model q.2)))
      hD' a b
    rw [← hfst', ← hsnd', zipWith_fst_snd, zipWith_fst_snd]
    exact hopt

/-- Witness for C5: `T = [290, 300, 310]`, NRTL params `[1/2, 3/5, 7/10]`
(the series of spec property P5), comparison line `(a, b) = (0, 0)`. -/
theorem fit_empirical_exact_least_squares_witness :
    (([290, 300, 310] : List ℚ).length = ([1/2, 3/5, 7/10] : List ℚ).length) ∧
    (([290, 300, 310] : List ℚ) ≠ []) ∧
    (0 < ((([290, 300, 310] : List ℚ).length : ℚ)) *
        ((empiricalX ([290, 300, 310] : List ℚ)).map (fun x => x ^ 2)).sum -
        ((empiricalX ([290, 300, 310] : List ℚ)).sum) ^ 2) ∧
    (fit_interaction_energies (α := ℚ) id id (fun _ _ => 0)
        [290, 300, 310] [1/2, 3/5, 7/10] ModelType.nrtl OptMethod.empirical none =
      ⟨0,
        [(polyfit1 (empiricalX ([290, 300, 310] : List ℚ))
            (empiricalY id ModelType.nrtl [1/2, 3/5, 7/10])).2,
          (polyfit1 (empiricalX ([290, 300, 310] : List ℚ))
            (empiricalY id ModelType.nrtl [1/2, 3/5, 7/10])).1],
        id (meanSq (List.zipWith (fun y yp => y - yp)
          (empiricalY id ModelType.nrtl [1/2, 3/5, 7/10])
          ((empiricalX ([290, 300, 310] : List ℚ)).map (fun x =>
            (polyfit1 (empiricalX ([290, 300, 310] : List ℚ))
              (empiricalY id ModelType.nrtl [1/2, 3/5, 7/10])).2 +
              (polyfit1 (empiricalX ([290, 300, 310] : List ℚ))
                (empiricalY id ModelType.nrtl [1/2, 3/5, 7/10])).1 * x))))⟩ ∧
      (List.zipWith (fun x y => (y -
          ((polyfit1 (empiricalX ([290, 300, 310] : List ℚ))
              (empiricalY id ModelType.nrtl [1/2, 3/5, 7/10])).2 +
            (polyfit1 (empiricalX ([290, 300, 310] : List ℚ))
              (empiricalY id ModelType.nrtl [1/2, 3/5, 7/10])).1 * x)) ^ 2)
        (empiricalX ([290, 300, 310] : List ℚ))
        (empiricalY id ModelType.nrtl [1/2, 3/5, 7/10])).sum ≤
      (List.zipWith (fun x y => (y - ((0 : ℚ) + 0 * x)) ^ 2)
        (empiricalX ([290, 300, 310] : List ℚ))
        (empiricalY id ModelType.nrtl [1/2, 3/5, 7/10])).sum) :=
  ⟨rfl, by simp, by norm_num [empiricalX],
    fit_empirical_exact_least_squares id id (fun _ _ => 0)
      [290, 300, 310] [1/2, 3/5, 7/10] ModelType.nrtl 0 0
      rfl (by simp) (by norm_num [empiricalX])⟩

section StabilityDefs

variable {α : Type} [LinearOrderedField α]

/-- Embeds `np.argmin` on the running state `(index i of the next element,
best index so far, best value so far)`: a strict `<` keeps the first minimal
element, as numpy does. -/
def argminAux : List α → ℕ → ℕ → α → ℕ
  | [], _, best, _ => best
  | a :: t, i, best, bv => if a < bv then argminAux t (i+1) i a else argminAux t (i+1) best bv

/-- Embeds `np.argmin` (0 on the empty array, where numpy raises). -/
def argminList : List α → ℕ
  | [] => 0
  | a :: t => argminAux t 1 0 a

/-- Embeds the cutoff selection of `ThermoOptimizer.analyze_stability_region`
(the `valid_mask`/`argmin`/fallback block): the instability profile it scans
is the sum over curves of `|gradient|² + local std` of the smoothed curves;
the selection below is proved for **every** profile of the right length, so
that smoothing pipeline (`uniform_filter1d`, `np.gradient`, `np.sqrt`) enters
only through its result, the `total_instability` argument.  The source tests
`np.any(valid_mask)` and falls back to the midpoint index otherwise; the
`if … = []` below is that same test, negated. -/
def stability_suggested_r (r_axis total_instability : List α) : α :=
  let rlast := r_axis.getLast?.getD 0
  let valid_indices := (List.range r_axis.length).filter
    (fun i => decide ((1/2 : α) < r_axis.getD i 0) &&
      decide (r_axis.getD i 0 < rlast * (9/10)))
  if valid_indices = [] then r_axis.getD (r_axis.length / 2) 0
  else
    let valid_instability := valid_indices.map (fun i => total_instability.getD i 0)
    let min_idx_local := argminList valid_instability
    let best_idx := valid_indices.getD min_idx_local 0
    r_axis.getD best_idx 0

end StabilityDefs

section StabilityLemmas

variable {α : Type} [LinearOrderedField α]

lemma argminAux_lt : ∀ (t : List α) (i best : ℕ) (bv : α),
    best < i → argminAux t i best bv < i + t.length := by
  intro t
  induction t with
  | nil =>
      intro i best bv h
      simpa [argminAux] using h
  | cons a t ih =>
      intro i best bv h
      simp only [argminAux]
      by_cases hc : a < bv
      · rw [if_pos hc]
        have := ih (i+1) i a (by omega)
        simpa [List.length_cons] using by omega
      · rw [if_neg hc]
        have := ih (i+1) best bv (by omega)
        simpa [List.length_cons] using by omega

lemma argminList_lt (l : List α) (h : l ≠ []) : argminList l < l.length := by
  cases l with
  | nil => exact absurd rfl h
  | cons a t =>
      have := argminAux_lt t 1 0 a (by omega)
      simp only [argminList, List.length_cons]
      omega

lemma le_getLast_of_chain' :
    ∀ (l : List α), l.Chain' (· < ·) → ∀ (h : l ≠ []) (a : α), a ∈ l → a ≤ l.getLast h := by
  intro l
  induction l with
  | nil => intro _ h; exact absurd rfl h
  | cons x t ih =>
      intro hchain h a ha
      cases t with
      | nil =>
          simp only [List.mem_singleton] at ha
          subst ha
          simp [List.getLast]
      | cons y s =>
          rw [List.getLast_cons (by simp)]
          rcases List.mem_cons.mp ha with rfl | ha'
          · have hxy : a < y := (List.chain'_cons.mp hchain).1
            have hy : y ≤ (y :: s).getLast (by simp) :=
              ih (List.chain'_cons.mp hchain).2 (by simp) y (by simp)
            exact le_trans (le_of_lt hxy) hy
          · exact ih (List.chain'_cons.mp hchain).2 (by simp) a ha'

end StabilityLemmas

/-- C8: whenever some entry of a strictly increasing `r_axis` lies strictly
inside `(0.5, 0.9·r_axis[-1])` (for a strictly increasing axis the last entry
is the maximum, `le_getLast_of_chain'`), the suggested cutoff radius is an
axis entry satisfying those same strict bounds, whatever the instability
profile is; and when the filtered index list is empty, the midpoint entry
`r_axis[len/2]` is returned. -/
theorem stability_suggested_r_bounds {α : Type} [LinearOrderedField α]
    (r_axis total_instability : List α) (i : ℕ)
    (hne : r_axis ≠ []) (hsorted : r_axis.Chain' (· < ·))
    (hlen : total_instability.length = r_axis.length) :
    (i < r_axis.length → 1/2 < r_axis.getD i 0 →
      r_axis.getD i 0 < r_axis.getLast hne * (9/10) →
        (1/2 < stability_suggested_r r_axis total_instability ∧
          stability_suggested_r r_axis total_instability < r_axis.getLast hne * (9/10))) ∧
    ((List.range r_axis.length).filter
        (fun j => decide ((1/2 : α) < r_axis.getD j 0) &&
          decide (r_axis.getD j 0 < (r_axis.getLast?.getD 0) * (9/10))) = [] →
      stability_suggested_r r_axis total_instability = r_axis.getD (r_axis.length / 2) 0) := by
  have hlast : r_axis.getLast?.getD 0 = r_axis.getLast hne := by
    rw [List.getLast?_eq_getLast r_axis hne]
    rfl
  constructor
  · intro hi h1 h2
    have hmem : i ∈ (List.range r_axis.length).filter
        (fun j => decide ((1/2 : α) < r_axis.getD j 0) &&
          decide (r_axis.getD j 0 < (r_axis.getLast?.getD 0) * (9/10))) := by
      rw [List.mem_filter]
      refine ⟨List.mem_range.mpr hi, ?_⟩
      simp only [Bool.and_eq_true, decide_eq_true_eq, hlast]
      exact ⟨h1, h2⟩
    have hne2 : (List.range r_axis.length).filter
        (fun j => decide ((1/2 : α) < r_axis.getD j 0) &&
          decide (r_axis.getD j 0 < (r_axis.getLast?.getD 0) * (9/10))) ≠ [] :=
      List.ne_nil_of_mem hmem
    set vidx := (List.range r_axis.length).filter
        (fun j => decide ((1/2 : α) < r_axis.getD j 0) &&
          decide (r_axis.getD j 0 < (r_axis.getLast?.getD 0) * (9/10))) with hvidx
    have hlt : argminList (vidx.map (fun j => total_instability.getD j 0)) <
        (vidx.map (fun j => total_instability.getD j 0)).length := by
      apply argminList_lt
      simpa using hne2
    rw [List.length_map] at hlt
    have hbest_mem : vidx.getD (argminList (vidx.map (fun j => total_instability.getD j 0))) 0
        ∈ vidx := by
      rw [List.getD_eq_getElem _ _ hlt]
      exact List.getElem_mem hlt
    have hpred := List.of_mem_filter hbest_mem
    simp only [Bool.and_eq_true, decide_eq_true_eq] at hpred
    have hval : stability_suggested_r r_axis total_instability =
        r_axis.getD (vidx.getD (argminList (vidx.map (fun j => total_instability.getD j 0))) 0) 0 := by
      simp only [stability_suggested_r]
      rw [← hvidx, if_neg hne2]
    rw [hval]
    rw [hlast] at hpred
    exact ⟨hpred.1, hpred.2⟩
  · intro hempty
    simp only [stability_suggested_r]
    rw [hempty]
    simp

/-- Witness for C8: `r_axis = [2/5, 3/5, 1]`, profile `[5, 1, 7]`, entry
`i = 1` lies in `(1/2, 9/10)`. -/
theorem stability_suggested_r_bounds_witness :
    ((1 : ℕ) < ([2/5, 3/5, 1] : List ℚ).length) ∧
    ((1 : ℚ)/2 < ([2/5, 3/5, 1] : List ℚ).getD 1 0) ∧
    (([2/5, 3/5, 1] : List ℚ).getD 1 0 <
      ([2/5, 3/5, 1] : List ℚ).getLast (by simp) * (9/10)) ∧
    (1/2 < stability_suggested_r ([2/5, 3/5, 1] : List ℚ) [5, 1, 7] ∧
      stability_suggested_r ([2/5, 3/5, 1] : List ℚ) [5, 1, 7] <
        ([2/5, 3/5, 1] : List ℚ).getLast (by simp) * (9/10)) :=
  ⟨by norm_num, by norm_num [List.getD], by norm_num [List.getD, List.getLast],
    (stability_suggested_r_bounds ([2/5, 3/5, 1] : List ℚ) [5, 1, 7] 1 (by simp)
        (by norm_num [List.chain'_cons]) rfl).1
      (by norm_num) (by norm_num [List.getD]) (by norm_num [List.getD, List.getLast])⟩

section ProfileDefs

variable {α : Type} [LinearOrderedField α]

/-- Embeds `ThermoMath.get_wilson_params(omega_12, omega_21, v1, v2)`:
`Λ₁₂ = (V₂/V₁)·Ω₁₂`, `Λ₂₁ = (V₁/V₂)·Ω₂₁`, elementwise over the Ω arrays. -/
def get_wilson_params (omega_12 omega_21 : List α) (v1 v2 : α) : List α × List α :=
  (omega_12.map (fun o => (v2 / v1) * o), omega_21.map (fun o => (v1 / v2) * o))

/-- Embeds `ThermoMath.get_nrtl_params(omega_12, omega_21, alpha=0.3)`:
`τ = -ln(max(Ω, 1e-10)) / α`, elementwise. -/
def get_nrtl_params (log : α → α) (omega_12 omega_21 : List α) (alpha : α) :
    List α × List α :=
  (omega_12.map (fun o => -log (max o (1/10^10)) / alpha),
    omega_21.map (fun o => -log (max o (1/10^10)) / alpha))

/-- Embeds the model dispatch shared by `calculate_params_profile` and
`recalculate_model_params` in `SolubilityManager` (`p12, p21 = None, None`
unless the model is Wilson or NRTL; NRTL uses the default `alpha = 0.3`). -/
def computeModelParams (log : α → α) (model : ModelType)
    (omega12 omega21 : List α) (v1 v2 : α) : Option (List α) × Option (List α) :=
  match model with
  | .wilson =>
      let p := get_wilson_params omega12 omega21 v1 v2
      (some p.1, some p.2)
  | .nrtl =>
      let p := get_nrtl_params log omega12 omega21 (3/10)
      (some p.1, some p.2)
  | _ => (none, none)

/-- The per-`(system, simulation)` dict cached in the `results` mapping of
`SolubilityManager.calculate_params_profile` (keys `r`, `omega12`, `omega21`,
`p12`, `p21`, `x_solute`, `temperature`). -/
structure ProfileRecord (α : Type) where
  r : List α
  omega12 : List α
  omega21 : List α
  p12 : Option (List α)
  p21 : Option (List α)
  x_solute : α
  temperature : α

/-- Embeds the per-simulation body of `calculate_params_profile` (coordination
numbers from the three truncated RDF curves, Ω ratios, model parameters, all
cached in the record).  `pi` models `np.pi`, `log` models `np.log`. -/
def buildProfileRecord (pi : α) (log : α → α) (r g11 g22 g12 : List α)
    (rho1 rho2 : α) (model : ModelType) (v1 v2 : α) (x_sol temp : α) :
    ProfileRecord α :=
  let n11 := calculate_coordination_number pi r g11 rho1
  let n22 := calculate_coordination_number pi r g22 rho2
  let n12 := calculate_coordination_number pi r g12 rho2
  let n21 := calculate_coordination_number pi r g12 rho1
  let omega12 := calculate_local_composition_ratio n12 n22
  let omega21 := calculate_local_composition_ratio n21 n11
  let p := computeModelParams log model omega12 omega21 v1 v2
  { r := r, omega12 := omega12, omega21 := omega21, p12 := p.1, p21 := p.2,
    x_solute := x_sol, temperature := temp }

/-- Embeds `SolubilityManager.recalculate_model_params` on one cached record:
`P₁₂`/`P₂₁` are recomputed from the cached Ω arrays only — the record's RDF
data (`r`) is never read.  The `v1 if v1 else 300.0` / `v2 if v2 else 100.0`
Python truthiness defaults are modelled on `Option α` (absent or zero falls
back to 300.0 / 100.0). -/
def recalcRecord (log : α → α) (d : ProfileRecord α) (model : ModelType)
    (v1 v2 : Option α) : ProfileRecord α :=
  let o12 := d.omega12
  let o21 := d.omega21
  let v1d := match v1 with
    | some v => if v = 0 then 300 else v
    | none => 300
  let v2d := match v2 with
    | some v => if v = 0 then 100 else v
    | none => 100
  let p := computeModelParams log model o12 o21 v1d v2d
  { d with p12 := p.1, p21 := p.2 }

end ProfileDefs

/-- C9: re-running `recalculate_model_params` on a record cached by
`calculate_params_profile`, with the same model type and the same (nonzero,
hence Python-truthy) molar volumes used originally, overwrites `p12`/`p21`
with exactly the values the original computation produced — for every model
type, including the `None` pair of unsupported models.  `recalcRecord` takes
no RDF input at all, which is the claim's "without reading any RDF data". -/
theorem recalculate_reproduces_profile_params {α : Type} [LinearOrderedField α]
    (pi : α) (log : α → α) (r g11 g22 g12 : List α) (rho1 rho2 : α)
    (model : ModelType) (v1 v2 : α) (x_sol temp : α)
    (hv1 : v1 ≠ 0) (hv2 : v2 ≠ 0) :
    (recalcRecord log
        (buildProfileRecord pi log r g11 g22 g12 rho1 rho2 model v1 v2 x_sol temp)
        model (some v1) (some v2)).p12 =
      (buildProfileRecord pi log r g11 g22 g12 rho1 rho2 model v1 v2 x_sol temp).p12 ∧
    (recalcRecord log
        (buildProfileRecord pi log r g11 g22 g12 rho1 rho2 model v1 v2 x_sol temp)
        model (some v1) (some v2)).p21 =
      (buildProfileRecord pi log r g11 g22 g12 rho1 rho2 model v1 v2 x_sol temp).p21 := by
  cases model <;>
    simp [recalcRecord, buildProfileRecord, computeModelParams, hv1, hv2]

/-- Witness for C9: a Wilson record over `r = [0, 1]` with volumes `2, 3`. -/
theorem recalculate_reproduces_profile_params_witness :
    ((2 : ℚ) ≠ 0) ∧ ((3 : ℚ) ≠ 0) ∧
      ((recalcRecord (α := ℚ) id
          (buildProfileRecord 3 id [0, 1] [1, 1] [1, 1] [1, 1] 1 1
            ModelType.wilson 2 3 (1/2) 300)
          ModelType.wilson (some 2) (some 3)).p12 =
        (buildProfileRecord (α := ℚ) 3 id [0, 1] [1, 1] [1, 1] [1, 1] 1 1
          ModelType.wilson 2 3 (1/2) 300).p12 ∧
      (recalcRecord (α := ℚ) id
          (buildProfileRecord 3 id [0, 1] [1, 1] [1, 1] [1, 1] 1 1
            ModelType.wilson 2 3 (1/2) 300)
          ModelType.wilson (some 2) (some 3)).p21 =
        (buildProfileRecord (α := ℚ) 3 id [0, 1] [1, 1] [1, 1] [1, 1] 1 1
          ModelType.wilson 2 3 (1/2) 300).p21) :=
  ⟨by norm_num, by norm_num,
    recalculate_reproduces_profile_params 3 id [0, 1] [1, 1] [1, 1] [1, 1] 1 1
      ModelType.wilson 2 3 (1/2) 300 (by norm_num) (by norm_num)⟩

section PredictDefs

variable {α : Type} [LinearOrderedField α]

/-- One entry of `valid_points` in
`SolubilityManager.predict_with_global_optimization`: the point `(T,
x_solute, p12, p21)` extracted at the cutoff radius. -/
structure SolPoint (α : Type) where
  T : α
  x : α
  p12 : α
  p21 : α
deriving DecidableEq

/-- Embeds `np.mean`. -/
def npMean (l : List α) : α := l.sum / l.length

/-- Embeds `sorted(points, key=lambda k: k['x'])[0]` wrapped in a singleton
list (the "lowest x" filter): Python's sort is stable, so this is the first
point with minimal `x`. An empty group cannot arise (groups are built by
appending at least one point). -/
def selectLowestX : List (SolPoint α) → List (SolPoint α)
  | [] => []
  | p :: rest => [rest.foldl (fun best q => if q.x < best.x then q else best) p]

/-- The series harvested by step 3 of `predict_with_global_optimization`:
the `arrhenius_data` coordinate lists (`x = 1000/T`, `y = ln(avg P)`, the
label, modelled by its underlying `t_val`) and the regression inputs
`temp_list`, `p12_list`, `p21_list`. -/
structure RegressionData (α : Type) where
  arr_x : List α
  arr_y12 : List α
  arr_y21 : List α
  labels : List α
  temp_list : List α
  p12_list : List α
  p21_list : List α
deriving DecidableEq

/-- Embeds the per-temperature-group loop of
`predict_with_global_optimization` (step 3): for each group select the
lowest-x point or keep all, average `p12`/`p21`, and append to the regression
series and the Arrhenius diagnostic lists only when both averages are
strictly positive.  `log` models `np.log`. -/
def regressionInput (log : α → α) (use_lowest_x_only : Bool) :
    List (α × List (SolPoint α)) → RegressionData α
  | [] => ⟨[], [], [], [], [], [], []⟩
  | (t_val, points) :: rest =>
      let acc := regressionInput log use_lowest_x_only rest
      let points_use := if use_lowest_x_only then selectLowestX points else points
      let avg_p12 := npMean (points_use.map (fun q => q.p12))
      let avg_p21 := npMean (points_use.map (fun q => q.p21))
      if 0 < avg_p12 ∧ 0 < avg_p21 then
        ⟨1000 / t_val :: acc.arr_x, log avg_p12 :: acc.arr_y12,
          log avg_p21 :: acc.arr_y21, t_val :: acc.labels,
          t_val :: acc.temp_list, avg_p12 :: acc.p12_list, avg_p21 :: acc.p21_list⟩
      else acc

end PredictDefs

section PredictLemmas

variable {α : Type} [LinearOrderedField α]

lemma regressionInput_invariant (log : α → α) (useL : Bool) :
    ∀ groups : List (α × List (SolPoint α)),
      (∀ p ∈ (regressionInput log useL groups).p12_list, 0 < p) ∧
      (∀ p ∈ (regressionInput log useL groups).p21_list, 0 < p) ∧
      (regressionInput log useL groups).arr_x.length =
        (regressionInput log useL groups).temp_list.length ∧
      (regressionInput log useL groups).arr_y12.length =
        (regressionInput log useL groups).temp_list.length ∧
      (regressionInput log useL groups).arr_y21.length =
        (regressionInput log useL groups).temp_list.length ∧
      (regressionInput log useL groups).p12_list.length =
        (regressionInput log useL groups).temp_list.length ∧
      (regressionInput log useL groups).p21_list.length =
        (regressionInput log useL groups).temp_list.length := by
  intro groups
  induction groups with
  | nil => simp [regressionInput]
  | cons g rest ih =>
      obtain ⟨t_val, points⟩ := g
      obtain ⟨ih1, ih2, ih3, ih4, ih5, ih6, ih7⟩ := ih
      by_cases hpos :
          0 < npMean (((if useL then selectLowestX points else points)).map
            (fun q => q.p12)) ∧
          0 < npMean (((if useL then selectLowestX points else points)).map
            (fun q => q.p21))
      · simp only [regressionInput, if_pos hpos]
        refine ⟨?_, ?_, by simpa using ih3, by simpa using ih4,
          by simpa using ih5, by simpa using ih6, by simpa using ih7⟩
        · intro p hp
          rcases List.mem_cons.mp hp with rfl | hp'
          · exact hpos.1
          · exact ih1 p hp'
        · intro p hp
          rcases List.mem_cons.mp hp with rfl | hp'
          · exact hpos.2
          · exact ih2 p hp'
      · simp only [regressionInput, if_neg hpos]
        exact ⟨ih1, ih2, ih3, ih4, ih5, ih6, ih7⟩

end PredictLemmas

/-- C10: in the grouping loop of `predict_with_global_optimization`, a
temperature group whose averaged `p12` or `p21` is not strictly positive
contributes nothing — neither to the regression series nor to the Arrhenius
diagnostic lists (the skip-equation below); consequently every parameter
value handed to `fit_interaction_energies` is strictly positive, and the
Arrhenius lists stay aligned (one entry per kept group).  Nothing in the spec
states this invariant, and an all-nonpositive profile empties the regression
input entirely. -/
theorem predict_groups_positive_filter {α : Type} [LinearOrderedField α]
    (log : α → α) (useL : Bool) (groups : List (α × List (SolPoint α)))
    (t_val : α) (points : List (SolPoint α))
    (rest : List (α × List (SolPoint α)))
    (hbad : ¬(0 < npMean (((if useL then selectLowestX points else points)).map
          (fun q => q.p12)) ∧
        0 < npMean (((if useL then selectLowestX points else points)).map
          (fun q => q.p21)))) :
    (∀ p ∈ (regressionInput log useL groups).p12_list, 0 < p) ∧
    (∀ p ∈ (regressionInput log useL groups).p21_list, 0 < p) ∧
    (regressionInput log useL groups).arr_x.length =
      (regressionInput log useL groups).temp_list.length ∧
    (regressionInput log useL groups).arr_y12.length =
      (regressionInput log useL groups).temp_list.length ∧
    (regressionInput log useL groups).arr_y21.length =
      (regressionInput log useL groups).temp_list.length ∧
    regressionInput log useL ((t_val, points) :: rest) =
      regressionInput log useL rest := by
  obtain ⟨h1, h2, h3, h4, h5, _, _⟩ := regressionInput_invariant log useL groups
  refine ⟨h1, h2, h3, h4, h5, ?_⟩
  simp only [regressionInput, if_neg hbad]

/-- Witness for C10: two temperature groups, the first of which has a
negative averaged `p12` and is dropped from every output list. -/
theorem predict_groups_positive_filter_witness :
    (¬(0 < npMean (((if false then selectLowestX [(⟨300, 1/2, -1, 2⟩ : SolPoint ℚ)]
          else [(⟨300, 1/2, -1, 2⟩ : SolPoint ℚ)])).map (fun q => q.p12)) ∧
        0 < npMean (((if false then selectLowestX [(⟨300, 1/2, -1, 2⟩ : SolPoint ℚ)]
          else [(⟨300, 1/2, -1, 2⟩ : SolPoint ℚ)])).map (fun q => q.p21)))) ∧
    ((∀ p ∈ (regressionInput (α := ℚ) id false
        [(300, [⟨300, 1/2, -1, 2⟩]), (310, [⟨310, 1/2, 3, 4⟩])]).p12_list, 0 < p) ∧
      (∀ p ∈ (regressionInput (α := ℚ) id false
        [(300, [⟨300, 1/2, -1, 2⟩]), (310, [⟨310, 1/2, 3, 4⟩])]).p21_list, 0 < p) ∧
      (regressionInput (α := ℚ) id false
          [(300, [⟨300, 1/2, -1, 2⟩]), (310, [⟨310, 1/2, 3, 4⟩])]).arr_x.length =
        (regressionInput (α := ℚ) id false
          [(300, [⟨300, 1/2, -1, 2⟩]), (310, [⟨310, 1/2, 3, 4⟩])]).temp_list.length ∧
      (regressionInput (α := ℚ) id false
          [(300, [⟨300, 1/2, -1, 2⟩]), (310, [⟨310, 1/2, 3, 4⟩])]).arr_y12.length =
        (regressionInput (α := ℚ) id false
          [(300, [⟨300, 1/2, -1, 2⟩]), (310, [⟨310, 1/2, 3, 4⟩])]).temp_list.length ∧
      (regressionInput (α := ℚ) id false
          [(300, [⟨300, 1/2, -1, 2⟩]), (310, [⟨310, 1/2, 3, 4⟩])]).arr_y21.length =
        (regressionInput (α := ℚ) id false
          [(300, [⟨300, 1/2, -1, 2⟩]), (310, [⟨310, 1/2, 3, 4⟩])]).temp_list.length ∧
      regressionInput (α := ℚ) id false
          ((300, [⟨300, 1/2, -1, 2⟩]) :: [(310, [⟨310, 1/2, 3, 4⟩])]) =
        regressionInput (α := ℚ) id false [(310, [⟨310, 1/2, 3, 4⟩])]) :=
  ⟨by norm_num [npMean, selectLowestX],
    predict_groups_positive_filter id false
      [(300, [⟨300, 1/2, -1, 2⟩]), (310, [⟨310, 1/2, 3, 4⟩])]
      300 [⟨300, 1/2, -1, 2⟩] [(310, [⟨310, 1/2, 3, 4⟩])]
      (by norm_num [npMean, selectLowestX])⟩

end ChemSim
